import Mathlib

/-!
# Magnetic Whiteboard Team Builder — verified model

A shallow embedding of the board state and drag-placement engine of the
Magnetic Whiteboard application (`src/components/MagneticWhiteboard.jsx`),
together with theorems settling the specified properties.

JavaScript numbers are modelled as rationals (`ℚ`); the inputs reaching the
placement engine are finite pointer coordinates and element rectangles, for
which rational arithmetic agrees with IEEE double arithmetic on the operations
used here (subtraction, division by 24, rounding, min/max) up to rounding of
the representation, which none of the claims depends on.
-/

/-- One entry of the fixed color palette (source `COLORS`, lines 19–28). -/
structure Color where
  name : String
  bg : String
  text : String
deriving DecidableEq, Repr, Inhabited

/-- The fixed 8-entry palette, in source order (source lines 19–28). -/
def COLORS : List Color :=
  [ { name := "Slate", bg := "bg-slate-200", text := "text-slate-900" },
    { name := "Blue", bg := "bg-blue-200", text := "text-blue-900" },
    { name := "Green", bg := "bg-green-200", text := "text-green-900" },
    { name := "Yellow", bg := "bg-yellow-200", text := "text-yellow-900" },
    { name := "Orange", bg := "bg-orange-200", text := "text-orange-900" },
    { name := "Red", bg := "bg-red-200", text := "text-red-900" },
    { name := "Purple", bg := "bg-purple-200", text := "text-purple-900" },
    { name := "Pink", bg := "bg-pink-200", text := "text-pink-900" } ]

/-- A board item: `{id, type, text, x, y, color}` (source line 42).
`type` is the string tag `"magnet"` or `"label"` exactly as in the source. -/
structure Item where
  id : String
  type : String
  text : String
  x : ℚ
  y : ℚ
  color : ℤ
deriving DecidableEq, Repr

/-- Board-wide toggles `{grid, snap, locked}` (source line 43). -/
structure Settings where
  grid : Bool
  snap : Bool
  locked : Bool
deriving DecidableEq, Repr

/-- The aggregate board value `{items, settings}` (source lines 41–44). -/
structure Board where
  items : List Item
  settings : Settings
deriving DecidableEq, Repr

/-- The default board (source `DEFAULT_BOARD`, lines 41–44). -/
def DEFAULT_BOARD : Board :=
  { items := [], settings := { grid := true, snap := true, locked := false } }

/-- A DOM rectangle as returned by `getBoundingClientRect()`: the fields the
placement engine reads (source lines 131–147). -/
structure Rect where
  left : ℚ
  top : ℚ
  width : ℚ
  height : ℚ
deriving DecidableEq, Repr

/-- A pointer position in viewport coordinates (`info.point`, source
lines 132–133). -/
structure Point where
  x : ℚ
  y : ℚ
deriving DecidableEq, Repr

/-- The grid size, 24 units (source line 86). -/
def gridSize : ℚ := 24

/-- JavaScript `Math.round` on a finite value: the nearest integer, rounding
half-way cases toward positive infinity, i.e. `⌊q + 1/2⌋`. -/
def jsRound (q : ℚ) : ℤ :=
  ⌊q + 1/2⌋

/-- `Math.round(v / gridSize) * gridSize` (source lines 142–143). -/
def snapCoord (v : ℚ) : ℚ :=
  (jsRound (v / gridSize) : ℚ) * gridSize

/-- `Math.max(0, Math.min(v, bound))` (source lines 146–147). -/
def clampCoord (v bound : ℚ) : ℚ :=
  max 0 (min v bound)

/-- The per-item body of the drag commit for the dragged item (source
lines 139–148): centering correction, optional snap, then clamping to
`[0, rect.width − 120] × [0, rect.height − 40]`. -/
def moveItem (snap : Bool) (rect : Rect) (x y : ℚ) (it : Item) : Item :=
  let nx0 : ℚ := x - (if it.type = "label" then 0 else 60)
  let ny0 : ℚ := y - 20
  let nx1 : ℚ := if snap then snapCoord nx0 else nx0
  let ny1 : ℚ := if snap then snapCoord ny0 else ny0
  { it with x := clampCoord nx1 (rect.width - 120),
            y := clampCoord ny1 (rect.height - 40) }

/-- The drag-commit handler `onDragEnd(id, info)` (source lines 129–151),
with the board, the board rectangle (the `boardRef` element is present, source
line 130) and the pointer position passed explicitly. -/
def onDragEnd (b : Board) (rect : Rect) (id : String) (p : Point) : Board :=
  let x : ℚ := p.x - rect.left
  let y : ℚ := p.y - rect.top
  { b with items := b.items.map fun it =>
      if it.id ≠ id then it else moveItem b.settings.snap rect x y it }

/-- The drag gate of the `Magnet` component: `drag={!locked}` (source
line 348). Framer Motion starts a drag, and hence ever calls `onDragEnd`,
only when this is `true`. -/
def magnetDragEnabled (locked : Bool) : Bool := !locked

/-- A drag attempt as seen from the `Magnet` component (source lines 342–351):
the commit runs only when dragging is enabled, i.e. when the board is not
locked; otherwise the board is untouched. -/
def dragAttempt (b : Board) (rect : Rect) (id : String) (p : Point) : Board :=
  if magnetDragEnabled b.settings.locked then onDragEnd b rect id p else b

/-- `COLORS[colorIdx]` as JavaScript array indexing: `undefined` (here `none`)
off the end or at a negative index (source line 339). -/
def jsArrGet {α : Type} (l : List α) (i : ℤ) : Option α :=
  if i < 0 then none else l.get? i.toNat

/-- `COLORS[colorIdx] ?? COLORS[0]` (source line 339): palette lookup with
fallback to entry 0. -/
def magnetColor (colorIdx : ℤ) : Color :=
  match jsArrGet COLORS colorIdx with
  | some c => c
  | none => COLORS.headI

/-! ## Name parsing and bulk magnet creation -/

/-- The delimiter class of the split regex `[\n,;]+` (source line 36). -/
def isDelim (c : Char) : Bool :=
  c = '\n' || c = ',' || c = ';'

mutual

/-- `text.split(/[\n,;]+/)` on a character list: accumulate the current token
(in reverse) until a delimiter run, which `splitSkip` collapses. -/
def splitGo : List Char → List Char → List (List Char)
  | [], acc => [acc.reverse]
  | c :: rest, acc =>
      if isDelim c then acc.reverse :: splitSkip rest else splitGo rest (c :: acc)

/-- Inside a delimiter run: drop further delimiters, then resume a token.
A run that reaches the end of input contributes one trailing empty token,
as JavaScript `split` does. -/
def splitSkip : List Char → List (List Char)
  | [] => [[]]
  | c :: rest => if isDelim c then splitSkip rest else splitGo rest [c]

end

/-- `text.split(/[\n,;]+/)` (source line 36). -/
def splitDelims (s : String) : List String :=
  (splitGo s.data []).map String.mk

/-- JavaScript string whitespace for `trim` (the characters that can occur
here: space, tab, newline, carriage return, form feed, vertical tab). -/
def jsWhitespace (c : Char) : Bool :=
  c = ' ' || c = '\t' || c = '\n' || c = '\r' || c = '\x0c' || c = '\x0b'

/-- `s.trim()`: remove leading and trailing whitespace. -/
def trimChars (cs : List Char) : List Char :=
  ((cs.dropWhile jsWhitespace).reverse.dropWhile jsWhitespace).reverse

/-- `s.trim()` on strings. -/
def jsTrim (s : String) : String :=
  String.mk (trimChars s.data)

/-- `parseNames(text)` (source lines 34–39): split on the delimiter class,
trim each piece, discard empty results (`filter(Boolean)`). -/
def parseNames (text : String) : List String :=
  ((splitDelims text).map jsTrim).filter (fun s => s ≠ "")

/-- The magnets built from a paste (source lines 90–101). `uid()` draws from
`Math.random()` (source lines 30–32); the generator is passed in as `uidF`,
mapping the index of the new item to its fresh id. -/
def magnetsFromText (uidF : ℕ → String) (text : String) (selectedColor : ℤ) :
    List Item :=
  (parseNames text).enum.map fun p =>
    { id := uidF p.1,
      type := "magnet",
      text := p.2,
      x := 24 + ((p.1 % 4 : ℕ) : ℚ) * 140,
      y := 24 + ((p.1 / 4 : ℕ) : ℚ) * 60,
      color := selectedColor }

/-- `addMagnets` (source lines 88–104): no-op when the pasted text trims to
the empty string (`if (!pasteText.trim()) return`), otherwise append the new
magnets to the item list. -/
def addMagnets (uidF : ℕ → String) (pasteText : String) (selectedColor : ℤ)
    (b : Board) : Board :=
  if jsTrim pasteText = "" then b
  else { b with items := b.items ++ magnetsFromText uidF pasteText selectedColor }

/-! ## JSON documents, the persistence codec and import

`JSON.stringify` and `JSON.parse` are the platform codec between JSON text and
JavaScript values. JSON documents are modelled by the `JValue` tree below;
`parseJson` models `JSON.parse` (returning `none` where `JSON.parse` throws a
`SyntaxError`), and `boardToJson` models the value `JSON.stringify` receives
when exporting a `Board` (source line 154) — `stringify` followed by `parse`
is the identity on such trees, so the export/import pipeline is modelled at
the tree level. -/

/-- A parsed JSON document / plain JavaScript data value. -/
inductive JValue where
  | jnull : JValue
  | jbool : Bool → JValue
  | jnum : ℚ → JValue
  | jstr : String → JValue
  | jarr : List JValue → JValue
  | jobj : List (String × JValue) → JValue
deriving Repr

/-- JavaScript property access with optional chaining, `v?.key`: `none` stands
for `undefined`; only objects expose data properties here, and for duplicate
keys the later entry wins, as in `JSON.parse`. -/
def jsGet (v : JValue) (key : String) : Option JValue :=
  match v with
  | .jobj fields => fields.foldl (fun acc kv => if kv.1 = key then some kv.2 else acc) none
  | _ => none

/-- JavaScript truthiness of a possibly-`undefined` value: `undefined`, `null`,
`false`, `0` and `""` are falsy; every other object, array, string or number
is truthy. -/
def jsTruthy (v : Option JValue) : Bool :=
  match v with
  | none => false
  | some .jnull => false
  | some (.jbool b) => b
  | some (.jnum q) => q ≠ 0
  | some (.jstr s) => s ≠ ""
  | some (.jarr _) => true
  | some (.jobj _) => true

/-- Whether a JSON object has a top-level field named `key` at all
(irrespective of its value). -/
def hasKey (v : JValue) (key : String) : Bool :=
  (jsGet v key).isSome

/-! ### A JSON parser modelling `JSON.parse` -/

/-- Skip JSON insignificant whitespace. -/
def skipWs : List Char → List Char
  | [] => []
  | c :: rest =>
      if c = ' ' || c = '\t' || c = '\n' || c = '\r' then skipWs rest else c :: rest

/-- The digits `0`–`9` prefix of the input, and the rest. -/
def takeDigits (cs : List Char) : List Char × List Char :=
  (cs.takeWhile Char.isDigit, cs.dropWhile Char.isDigit)

/-- The natural number denoted by a digit string. -/
def digitsToNat (ds : List Char) : ℕ :=
  ds.foldl (fun n c => 10 * n + (c.toNat - 48)) 0

/-- Parse a JSON number: optional minus, integer part, optional fraction,
optional exponent, yielding its exact rational value. -/
def parseNumber (cs : List Char) : Option (ℚ × List Char) :=
  let (neg, cs1) := match cs with
    | '-' :: r => (true, r)
    | _ => (false, cs)
  let (ip, cs2) := takeDigits cs1
  if ip.isEmpty then none
  else
    let (fp, cs3) := match cs2 with
      | '.' :: r => takeDigits r
      | _ => ([], cs2)
    if cs2.head? = some '.' && fp.isEmpty then none
    else
      let parseExp : Option (ℤ × List Char) := match cs3 with
        | 'e' :: r | 'E' :: r =>
            let (esign, r1) : Bool × List Char := match r with
              | '+' :: r2 => (false, r2)
              | '-' :: r2 => (true, r2)
              | _ => (false, r)
            let (ed, r2) := takeDigits r1
            if ed.isEmpty then none
            else some (if esign then -(digitsToNat ed : ℤ) else (digitsToNat ed : ℤ), r2)
        | _ => some (0, cs3)
      match parseExp with
      | none => none
      | some (e, rest) =>
          let mantissa : ℚ :=
            (digitsToNat ip : ℚ) + (digitsToNat fp : ℚ) / ((10 : ℚ) ^ fp.length)
          let scaled : ℚ := mantissa * (10 : ℚ) ^ e
          some (if neg then -scaled else scaled, rest)

/-- The value of a hexadecimal digit, if the character is one. -/
def hexVal (c : Char) : Option ℕ :=
  if '0' ≤ c && c ≤ '9' then some (c.toNat - 48)
  else if 'a' ≤ c && c ≤ 'f' then some (c.toNat - 87)
  else if 'A' ≤ c && c ≤ 'F' then some (c.toNat - 70)
  else none

/-- Parse the body of a JSON string after the opening quote, handling the
escape sequences of the JSON grammar; returns the characters and the input
after the closing quote. -/
def parseStrChars (fuel : ℕ) (cs : List Char) : Option (List Char × List Char) :=
  match fuel, cs with
  | 0, _ => none
  | _, [] => none
  | fuel + 1, c :: rest =>
      if c = '"' then some ([], rest)
      else if c = '\\' then
        match rest with
        | [] => none
        | e :: rest2 =>
            if e = 'u' then
              match rest2 with
              | h1 :: h2 :: h3 :: h4 :: rest3 =>
                  match hexVal h1, hexVal h2, hexVal h3, hexVal h4 with
                  | some a, some b, some c3, some d =>
                      (parseStrChars fuel rest3).map fun pr =>
                        (Char.ofNat (((a * 16 + b) * 16 + c3) * 16 + d) :: pr.1, pr.2)
                  | _, _, _, _ => none
              | _ => none
            else
              let esc : Option Char :=
                if e = '"' then some '"'
                else if e = '\\' then some '\\'
                else if e = '/' then some '/'
                else if e = 'n' then some '\n'
                else if e = 't' then some '\t'
                else if e = 'r' then some '\r'
                else if e = 'b' then some (Char.ofNat 8)
                else if e = 'f' then some (Char.ofNat 12)
                else none
              match esc with
              | none => none
              | some c2 => (parseStrChars fuel rest2).map fun pr => (c2 :: pr.1, pr.2)
      else (parseStrChars fuel rest).map fun pr => (c :: pr.1, pr.2)

mutual

/-- Parse one JSON value (leading whitespace allowed). -/
def parseValue : ℕ → List Char → Option (JValue × List Char)
  | 0, _ => none
  | fuel + 1, cs =>
      match skipWs cs with
      | 'n' :: 'u' :: 'l' :: 'l' :: rest => some (.jnull, rest)
      | 't' :: 'r' :: 'u' :: 'e' :: rest => some (.jbool true, rest)
      | 'f' :: 'a' :: 'l' :: 's' :: 'e' :: rest => some (.jbool false, rest)
      | '"' :: rest =>
          (parseStrChars (fuel + 1) rest).map fun pr => (.jstr (String.mk pr.1), pr.2)
      | '\x7b' :: rest =>
          (match skipWs rest with
           | '\x7d' :: rest2 => some (.jobj [], rest2)
           | other => (parseMembers fuel other).map fun pr => (.jobj pr.1, pr.2))
      | '[' :: rest =>
          (match skipWs rest with
           | ']' :: rest2 => some (.jarr [], rest2)
           | other => (parseElems fuel other).map fun pr => (.jarr pr.1, pr.2))
      | other => (parseNumber other).map fun pr => (.jnum pr.1, pr.2)

/-- Parse the members of a JSON object after `{`, at least one, through the
closing `}`. -/
def parseMembers : ℕ → List Char → Option (List (String × JValue) × List Char)
  | 0, _ => none
  | fuel + 1, cs =>
      match skipWs cs with
      | '"' :: rest =>
          match parseStrChars (fuel + 1) rest with
          | none => none
          | some (k, r1) =>
              match skipWs r1 with
              | ':' :: r2 =>
                  match parseValue fuel r2 with
                  | none => none
                  | some (v, r3) =>
                      match skipWs r3 with
                      | ',' :: r4 =>
                          (parseMembers fuel r4).map fun pr =>
                            ((String.mk k, v) :: pr.1, pr.2)
                      | '\x7d' :: r4 => some ([(String.mk k, v)], r4)
                      | _ => none
              | _ => none
      | _ => none

/-- Parse the elements of a JSON array after `[`, at least one, through the
closing `]`. -/
def parseElems : ℕ → List Char → Option (List JValue × List Char)
  | 0, _ => none
  | fuel + 1, cs =>
      match parseValue fuel cs with
      | none => none
      | some (v, r1) =>
          match skipWs r1 with
          | ',' :: r2 => (parseElems fuel r2).map fun pr => (v :: pr.1, pr.2)
          | ']' :: r2 => some ([v], r2)
          | _ => none

end

/-- `JSON.parse(text)`: `none` where `JSON.parse` throws. The fuel is an
upper bound on the recursion depth; one unit is consumed per nested value or
member, so twice the length plus a constant always suffices. -/
def parseJson (text : String) : Option JValue :=
  match parseValue (2 * text.length + 8) text.data with
  | some (v, rest) => if (skipWs rest).isEmpty then some v else none
  | none => none

/-! ### Export and import -/

/-- The JSON document `JSON.stringify` produces for one item (source
line 154): the fields in declaration order with their live values. -/
def itemToJson (it : Item) : JValue :=
  .jobj [("id", .jstr it.id), ("type", .jstr it.type), ("text", .jstr it.text),
         ("x", .jnum it.x), ("y", .jnum it.y), ("color", .jnum (it.color : ℚ))]

/-- The JSON document `JSON.stringify(board, null, 2)` denotes (source
lines 153–154): `{items: [...], settings: {grid, snap, locked}}`. -/
def boardToJson (b : Board) : JValue :=
  .jobj [("items", .jarr (b.items.map itemToJson)),
         ("settings", .jobj [("grid", .jbool b.settings.grid),
                             ("snap", .jbool b.settings.snap),
                             ("locked", .jbool b.settings.locked)])]

/-- Reads an exported item document back into the `Item` model, `none` on any
shape mismatch; the inverse direction of `itemToJson`, used to state the
field-for-field round trip. -/
def itemFromJson : JValue → Option Item
  | .jobj [("id", .jstr i), ("type", .jstr ty), ("text", .jstr tx),
           ("x", .jnum x), ("y", .jnum y), ("color", .jnum c)] =>
      if c.den = 1 then
        some { id := i, type := ty, text := tx, x := x, y := y, color := c.num }
      else none
  | _ => none

/-- Reads a list of exported item documents back, `none` if any fails. -/
def decodeItems : List JValue → Option (List Item)
  | [] => some []
  | j :: rest =>
      match itemFromJson j, decodeItems rest with
      | some it, some its => some (it :: its)
      | _, _ => none

/-- Reads an exported board document back into the `Board` model, `none` on
any shape mismatch; the inverse direction of `boardToJson`. -/
def boardFromJson : JValue → Option Board
  | .jobj [("items", .jarr xs),
           ("settings", .jobj [("grid", .jbool g), ("snap", .jbool s),
                               ("locked", .jbool k)])] =>
      (decodeItems xs).map fun its =>
        { items := its, settings := { grid := g, snap := s, locked := k } }
  | _ => none

/-- The two ways an import can fail (source lines 174–180): the file text is
not valid JSON (`alert("Could not parse file.")`), or it parses but fails the
structural check `json?.items && json?.settings`
(`alert("Invalid file format.")`). -/
inductive ImportError where
  | parseFailure : ImportError
  | schemaFailure : ImportError
deriving DecidableEq, Repr

/-- The import pipeline of `handleImport` (source lines 173–180) applied to
the file text: parse, then accept exactly when `json?.items && json?.settings`
is truthy, yielding the parsed document itself. -/
def deserialize (text : String) : Except ImportError JValue :=
  match parseJson text with
  | none => .error .parseFailure
  | some j =>
      if jsTruthy (jsGet j "items") && jsTruthy (jsGet j "settings") then .ok j
      else .error .schemaFailure

/-- The board document installed after `handleImport` runs on `text` with
`cur` the current board document: on success the parsed value verbatim
(`setBoard(json)`, source line 176), on failure the current one. -/
def importResult (text : String) (cur : JValue) : JValue :=
  match deserialize text with
  | .ok j => j
  | .error _ => cur

/-- The acceptance check of `handleImport` at the document level (source
line 176), as run on an already-parsed document. -/
def importCheck (j : JValue) : Bool :=
  jsTruthy (jsGet j "items") && jsTruthy (jsGet j "settings")

/-- The document-level import step after a successful parse (source line 176):
`setBoard(json)` when the check passes, otherwise the current board document
is kept. -/
def importResultDoc (j : JValue) (cur : JValue) : JValue :=
  if importCheck j then j else cur

/-! ## Helper lemmas about the placement arithmetic -/

theorem moveItem_x (snap : Bool) (rect : Rect) (x y : ℚ) (it : Item) :
    (moveItem snap rect x y it).x =
      clampCoord
        (if snap then snapCoord (x - (if it.type = "label" then 0 else 60))
         else x - (if it.type = "label" then 0 else 60))
        (rect.width - 120) := rfl

theorem moveItem_y (snap : Bool) (rect : Rect) (x y : ℚ) (it : Item) :
    (moveItem snap rect x y it).y =
      clampCoord (if snap then snapCoord (y - 20) else y - 20)
        (rect.height - 40) := rfl

theorem moveItem_id (snap : Bool) (rect : Rect) (x y : ℚ) (it : Item) :
    (moveItem snap rect x y it).id = it.id := rfl

theorem moveItem_type (snap : Bool) (rect : Rect) (x y : ℚ) (it : Item) :
    (moveItem snap rect x y it).type = it.type := rfl

theorem moveItem_text (snap : Bool) (rect : Rect) (x y : ℚ) (it : Item) :
    (moveItem snap rect x y it).text = it.text := rfl

theorem moveItem_color (snap : Bool) (rect : Rect) (x y : ℚ) (it : Item) :
    (moveItem snap rect x y it).color = it.color := rfl

theorem snapCoord_multiple (v : ℚ) : ∃ k : ℤ, snapCoord v = (k : ℚ) * 24 :=
  ⟨jsRound (v / gridSize), rfl⟩

theorem clampCoord_of_multiple (v bound : ℚ) (k : ℤ) (hv : v = (k : ℚ) * 24) :
    (∃ m : ℤ, clampCoord v bound = (m : ℚ) * 24) ∨ clampCoord v bound = bound := by
  unfold clampCoord
  rcases le_total v bound with h | h
  · rw [min_eq_left h]
    rcases le_total v 0 with h0 | h0
    · left
      exact ⟨0, by rw [max_eq_left h0]; norm_num⟩
    · left
      exact ⟨k, by rw [max_eq_right h0, hv]⟩
  · rw [min_eq_right h]
    rcases le_total bound 0 with h0 | h0
    · left
      exact ⟨0, by rw [max_eq_left h0]; norm_num⟩
    · right
      exact max_eq_right h0

theorem clampCoord_bounds (v bound : ℚ) (hb : 0 ≤ bound) :
    0 ≤ clampCoord v bound ∧ clampCoord v bound ≤ bound :=
  ⟨le_max_left _ _, max_le hb (min_le_right _ _)⟩

theorem clampCoord_nonpos (v bound : ℚ) (hb : bound ≤ 0) : clampCoord v bound = 0 :=
  max_eq_left (le_trans (min_le_right _ _) hb)

/-- A committed item carrying the dragged id comes from `moveItem` applied to
an original item of the board. -/
theorem mem_onDragEnd (b : Board) (rect : Rect) (id : String) (p : Point)
    (it : Item) (hmem : it ∈ (onDragEnd b rect id p).items) (hid : it.id = id) :
    ∃ a ∈ b.items, a.id = id ∧
      it = moveItem b.settings.snap rect (p.x - rect.left) (p.y - rect.top) a := by
  simp only [onDragEnd, List.mem_map] at hmem
  obtain ⟨a, ha, heq⟩ := hmem
  by_cases h : a.id = id
  · refine ⟨a, ha, h, ?_⟩
    rw [← heq]
    simp [h]
  · exfalso
    rw [if_pos h] at heq
    rw [← heq] at hid
    exact h hid

/-- The magnet centering correction of line 139 evaluates to 60 units. -/
theorem magnet_correction :
    (if ("magnet" : String) = "label" then (0 : ℚ) else 60) = 60 := by
  rw [if_neg]
  decide

/-! ## Claims about the placement engine -/

def c1Board : Board :=
  { items := [{ id := "a", type := "magnet", text := "A", x := 0, y := 0, color := 1 }],
    settings := { grid := true, snap := true, locked := false } }

def c1Rect : Rect := { left := 0, top := 0, width := 130, height := 1000 }

def c1Point : Point := { x := 1000, y := 120 }

/-- C1, counterexample: with snap enabled, a drag against the right edge of a
board 130 units wide commits `x = 10`, which is not an integer multiple of 24:
the clamp of lines 146–147 runs after the snap of lines 142–143 and can land
off the grid. -/
theorem c1_counterexample :
    (onDragEnd c1Board c1Rect "a" c1Point).items.map Item.x = [10] ∧
    ¬ ∃ k : ℤ, (10 : ℚ) = (k : ℚ) * 24 := by
  constructor
  · norm_num [onDragEnd, c1Board, c1Rect, c1Point, moveItem, snapCoord, clampCoord,
      jsRound, gridSize, magnet_correction]
  · rintro ⟨k, hk⟩
    have h : (10 : ℤ) = k * 24 := by exact_mod_cast hk
    omega

/-- C1, amended: for every drag commit with `settings.snap` true, each
coordinate of the committed position of the dragged item is an integer
multiple of the grid size 24, or else equals the upper clamp bound
(`rect.width − 120` for x, `rect.height − 40` for y). -/
theorem c1_snap_multiple_or_clamped (b : Board) (rect : Rect) (id : String)
    (p : Point) (hsnap : b.settings.snap = true) (it : Item)
    (hmem : it ∈ (onDragEnd b rect id p).items) (hid : it.id = id) :
    ((∃ k : ℤ, it.x = (k : ℚ) * 24) ∨ it.x = rect.width - 120) ∧
    ((∃ k : ℤ, it.y = (k : ℚ) * 24) ∨ it.y = rect.height - 40) := by
  obtain ⟨a, _, _, rfl⟩ := mem_onDragEnd b rect id p it hmem hid
  constructor
  · rw [moveItem_x, hsnap, if_pos rfl]
    obtain ⟨k, hk⟩ := snapCoord_multiple
      (p.x - rect.left - (if a.type = "label" then 0 else 60))
    exact clampCoord_of_multiple _ _ k hk
  · rw [moveItem_y, hsnap, if_pos rfl]
    obtain ⟨k, hk⟩ := snapCoord_multiple (p.y - rect.top - 20)
    exact clampCoord_of_multiple _ _ k hk

def c1Item : Item :=
  { id := "a", type := "magnet", text := "A", x := 10, y := 96, color := 1 }

/-- C1, witness: the amended theorem applied to the concrete drag of the
counterexample board. -/
theorem c1_witness :
    ((∃ k : ℤ, c1Item.x = (k : ℚ) * 24) ∨ c1Item.x = c1Rect.width - 120) ∧
    ((∃ k : ℤ, c1Item.y = (k : ℚ) * 24) ∨ c1Item.y = c1Rect.height - 40) := by
  have hmem : c1Item ∈ (onDragEnd c1Board c1Rect "a" c1Point).items := by
    have h : (onDragEnd c1Board c1Rect "a" c1Point).items = [c1Item] := by
      norm_num [onDragEnd, c1Board, c1Rect, c1Point, c1Item, moveItem, snapCoord,
        clampCoord, jsRound, gridSize, magnet_correction]
    rw [h]
    exact List.mem_singleton_self _
  exact c1_snap_multiple_or_clamped c1Board c1Rect "a" c1Point rfl c1Item hmem rfl

def c2Board : Board :=
  { items := [{ id := "a", type := "magnet", text := "A", x := 5, y := 5, color := 1 }],
    settings := { grid := true, snap := false, locked := false } }

def c2Rect : Rect := { left := 0, top := 0, width := 100, height := 30 }

def c2Point : Point := { x := 50, y := 25 }

/-- C2, counterexample: on a board 100 units wide the drag commits `x = 0`,
which is strictly greater than `rect.width − 120 = −20`; the upper clamp bound
is not respected when the board is narrower than the nominal item width. -/
theorem c2_counterexample :
    (onDragEnd c2Board c2Rect "a" c2Point).items.map Item.x = [0] ∧
    ¬ ((0 : ℚ) ≤ c2Rect.width - 120) := by
  constructor
  · norm_num [onDragEnd, c2Board, c2Rect, c2Point, moveItem, clampCoord, magnet_correction]
  · norm_num [c2Rect]

/-- C2, amended: for every drag commit on a board rectangle at least as large
as the nominal item size (`width ≥ 120`, `height ≥ 40`), the committed
position of the dragged item satisfies `0 ≤ x ≤ rect.width − 120` and
`0 ≤ y ≤ rect.height − 40`, for every raw pointer coordinate. -/
theorem c2_clamped_within_bounds (b : Board) (rect : Rect) (id : String)
    (p : Point) (hw : (120 : ℚ) ≤ rect.width) (hh : (40 : ℚ) ≤ rect.height)
    (it : Item) (hmem : it ∈ (onDragEnd b rect id p).items) (hid : it.id = id) :
    (0 ≤ it.x ∧ it.x ≤ rect.width - 120) ∧ (0 ≤ it.y ∧ it.y ≤ rect.height - 40) := by
  obtain ⟨a, _, _, rfl⟩ := mem_onDragEnd b rect id p it hmem hid
  constructor
  · rw [moveItem_x]
    exact clampCoord_bounds _ _ (by linarith)
  · rw [moveItem_y]
    exact clampCoord_bounds _ _ (by linarith)

def c2wRect : Rect := { left := 0, top := 0, width := 1000, height := 800 }

def c2wPoint : Point := { x := -5000, y := 9000 }

def c2wItem : Item :=
  { id := "a", type := "magnet", text := "A", x := 0, y := 760, color := 1 }

/-- C2, witness: the amended theorem applied to a drag far outside a
1000 × 800 board. -/
theorem c2_witness :
    (0 ≤ c2wItem.x ∧ c2wItem.x ≤ c2wRect.width - 120) ∧
    (0 ≤ c2wItem.y ∧ c2wItem.y ≤ c2wRect.height - 40) := by
  have hmem : c2wItem ∈ (onDragEnd c2Board c2wRect "a" c2wPoint).items := by
    have h : (onDragEnd c2Board c2wRect "a" c2wPoint).items = [c2wItem] := by
      norm_num [onDragEnd, c2Board, c2wRect, c2wPoint, c2wItem, moveItem, clampCoord, magnet_correction]
    rw [h]
    exact List.mem_singleton_self _
  exact c2_clamped_within_bounds c2Board c2wRect "a" c2wPoint (by norm_num [c2wRect])
    (by norm_num [c2wRect]) c2wItem hmem rfl

def c7Board : Board :=
  { items := [{ id := "a", type := "magnet", text := "A", x := 100, y := 100, color := 1 }],
    settings := { grid := true, snap := false, locked := false } }

def c7Rect : Rect := { left := 0, top := 0, width := 0, height := 0 }

def c7Point : Point := { x := 200, y := 200 }

/-- C7, counterexample: with a zero-size board rectangle the drag commit is
not a no-op — the dragged item is moved from (100, 100) to (0, 0); only a
missing `boardRef` causes an early return (source line 130), not a degenerate
rectangle. -/
theorem c7_counterexample :
    (onDragEnd c7Board c7Rect "a" c7Point).items.map (fun it => (it.x, it.y)) =
      [((0 : ℚ), (0 : ℚ))] ∧
    onDragEnd c7Board c7Rect "a" c7Point ≠ c7Board := by
  have h : (onDragEnd c7Board c7Rect "a" c7Point).items.map (fun it => (it.x, it.y)) =
      [((0 : ℚ), (0 : ℚ))] := by
    norm_num [onDragEnd, c7Board, c7Rect, c7Point, moveItem, clampCoord, magnet_correction]
  refine ⟨h, fun heq => ?_⟩
  rw [heq] at h
  norm_num [c7Board] at h

/-- C7, amended: a drag commit on a degenerate board rectangle is not
deferred; it commits, with the affected coordinate clamped to 0 (never
negative and, in exact arithmetic, never undefined): if `rect.width ≤ 0` the
committed x is 0, and if `rect.height ≤ 0` the committed y is 0. -/
theorem c7_degenerate_rect_clamps_to_zero (b : Board) (rect : Rect)
    (id : String) (p : Point) (it : Item)
    (hmem : it ∈ (onDragEnd b rect id p).items) (hid : it.id = id) :
    (rect.width ≤ 0 → it.x = 0) ∧ (rect.height ≤ 0 → it.y = 0) := by
  obtain ⟨a, _, _, rfl⟩ := mem_onDragEnd b rect id p it hmem hid
  constructor
  · intro hw
    rw [moveItem_x]
    exact clampCoord_nonpos _ _ (by linarith)
  · intro hh
    rw [moveItem_y]
    exact clampCoord_nonpos _ _ (by linarith)

def c7Item : Item :=
  { id := "a", type := "magnet", text := "A", x := 0, y := 0, color := 1 }

/-- C7, witness: the amended theorem applied to the zero-size rectangle drag
of the counterexample. -/
theorem c7_witness : c7Item.x = 0 ∧ c7Item.y = 0 := by
  have hmem : c7Item ∈ (onDragEnd c7Board c7Rect "a" c7Point).items := by
    have h : (onDragEnd c7Board c7Rect "a" c7Point).items = [c7Item] := by
      norm_num [onDragEnd, c7Board, c7Rect, c7Point, c7Item, moveItem, clampCoord, magnet_correction]
    rw [h]
    exact List.mem_singleton_self _
  have h := c7_degenerate_rect_clamps_to_zero c7Board c7Rect "a" c7Point c7Item hmem rfl
  exact ⟨h.1 (by norm_num [c7Rect]), h.2 (by norm_num [c7Rect])⟩


/-! ## Claims about the persistence codec and import -/

/-- Decoding inverts encoding on a single item. -/
theorem itemFromJson_itemToJson (it : Item) :
    itemFromJson (itemToJson it) = some it := by
  simp [itemToJson, itemFromJson, Rat.den_intCast, Rat.num_intCast]

/-- Decoding inverts encoding on a list of items. -/
theorem decodeItems_map_itemToJson (its : List Item) :
    decodeItems (its.map itemToJson) = some its := by
  induction its with
  | nil => rfl
  | cons it rest ih =>
      simp [decodeItems, itemFromJson_itemToJson, ih]

/-- C3, confirmed: for every board value, the exported JSON document decodes
back to the same board field-for-field, the import check accepts it, and the
the import installs the parsed document verbatim. (`JSON.stringify` followed by
`JSON.parse` is the identity between a plain data value and its JSON text, so
the codec is stated on JSON documents.) -/
theorem c3_roundtrip (b : Board) (cur : JValue) :
    boardFromJson (boardToJson b) = some b ∧
    importCheck (boardToJson b) = true ∧
    importResultDoc (boardToJson b) cur = boardToJson b := by
  refine ⟨?_, ?_, ?_⟩
  · simp [boardToJson, boardFromJson, decodeItems_map_itemToJson]
  · simp [importCheck, boardToJson, jsGet, jsTruthy]
  · simp [importResultDoc, importCheck, boardToJson, jsGet, jsTruthy]

def c4Doc : String := "\x7b\"items\":null,\"settings\":\x7b\x7d\x7d"

def c4Json : JValue := .jobj [("items", .jnull), ("settings", .jobj [])]

/-- C4, counterexample: the document `{"items":null,"settings":{}}` parses and
has both top-level keys `items` and `settings`, yet the import rejects it with
the schema error — the check of line 176 tests JavaScript truthiness of the
values, not presence of the keys. -/
theorem c4_counterexample :
    parseJson c4Doc = some c4Json ∧
    hasKey c4Json "items" = true ∧
    hasKey c4Json "settings" = true ∧
    deserialize c4Doc = .error .schemaFailure := by
  exact ⟨rfl, rfl, rfl, rfl⟩

/-- C4, amended: import of `"{not json"` fails with the parse error; import of
`"{}"` fails with the schema error; a parsed document is rejected exactly when
the truthiness check on its top-level `items` and `settings` values fails — a
key that is absent, or present with a falsy value (`null`, `false`, `0`,
`""`) — and in every failure case the current board document is kept
unchanged. -/
theorem c4_import_rejection :
    deserialize "\x7bnot json" = .error .parseFailure ∧
    deserialize "\x7b\x7d" = .error .schemaFailure ∧
    (∀ text cur e, deserialize text = .error e → importResult text cur = cur) ∧
    (∀ text j, parseJson text = some j →
      deserialize text =
        (if importCheck j then .ok j else .error .schemaFailure)) := by
  refine ⟨rfl, rfl, ?_, ?_⟩
  · intro text cur e h
    simp [importResult, h]
  · intro text j h
    simp [deserialize, importCheck, h]

/-- C4, witness: a failing import leaves the current board document in place,
at the concrete rejected input `"{}"`. -/
theorem c4_witness : importResult "\x7b\x7d" c4Json = c4Json :=
  c4_import_rejection.2.2.1 "\x7b\x7d" c4Json .schemaFailure rfl

/-! ## Claims about bulk creation, parsing and the palette -/

/-- C5, confirmed: `"Alice, Bob;  Carol\nDave"` yields exactly 4 magnets with
texts Alice, Bob, Carol, Dave in that order, item i placed at
`x = 24 + (i mod 4) * 140`, `y = 24 + ⌊i / 4⌋ * 60`, i.e. at
(24,24), (164,24), (304,24), (444,24), for any id generator and color. -/
theorem c5_bulk_creation (uidF : ℕ → String) (c : ℤ) :
    (magnetsFromText uidF "Alice, Bob;  Carol\nDave" c).map
      (fun it => (it.type, it.text, it.x, it.y)) =
    [("magnet", "Alice", (24 : ℚ), (24 : ℚ)), ("magnet", "Bob", 164, 24),
     ("magnet", "Carol", 304, 24), ("magnet", "Dave", 444, 24)] := by
  have h : parseNames "Alice, Bob;  Carol\nDave" = ["Alice", "Bob", "Carol", "Dave"] := by
    decide
  norm_num [magnetsFromText, h, List.enum, List.enumFrom]
  decide

/-- C6, confirmed: when the board is locked, drag initiation is suppressed
(`drag={!locked}`), so a drag attempt leaves the board — in particular every
item position — unchanged. -/
theorem c6_locked_drag_noop (b : Board) (rect : Rect) (id : String) (p : Point)
    (hlock : b.settings.locked = true) : dragAttempt b rect id p = b := by
  simp [dragAttempt, magnetDragEnabled, hlock]

def c6Board : Board :=
  { items := [{ id := "a", type := "magnet", text := "A", x := 100, y := 100, color := 1 }],
    settings := { grid := true, snap := true, locked := true } }

def c6Rect : Rect := { left := 0, top := 0, width := 1200, height := 700 }

def c6Point : Point := { x := 300, y := 200 }

/-- C6, witness: a locked board survives a concrete drag attempt untouched. -/
theorem c6_witness :
    dragAttempt c6Board c6Rect "a" c6Point = c6Board :=
  c6_locked_drag_noop c6Board c6Rect "a" c6Point rfl

/-- Every character of every token produced by the splitter is drawn from the
input (or the accumulator), so an all-whitespace input yields all-whitespace
tokens. Proved for `splitGo` and `splitSkip` together by induction on a
length bound. -/
theorem splitTokens_ws (n : ℕ) :
    ∀ cs acc : List Char, cs.length ≤ n →
      (∀ c ∈ cs, jsWhitespace c = true) →
      (∀ c ∈ acc, jsWhitespace c = true) →
      (∀ t ∈ splitGo cs acc, ∀ c ∈ t, jsWhitespace c = true) ∧
      (∀ t ∈ splitSkip cs, ∀ c ∈ t, jsWhitespace c = true) := by
  induction n with
  | zero =>
      intro cs acc hlen h hacc
      have hnil : cs = [] := List.eq_nil_of_length_eq_zero (Nat.le_zero.mp hlen)
      subst hnil
      constructor
      · intro t ht c hc
        simp only [splitGo, List.mem_singleton] at ht
        subst ht
        exact hacc c (List.mem_reverse.mp hc)
      · intro t ht c hc
        simp only [splitSkip, List.mem_singleton] at ht
        subst ht
        simp at hc
  | succ n ih =>
      intro cs acc hlen h hacc
      match cs with
      | [] =>
          constructor
          · intro t ht c hc
            simp only [splitGo, List.mem_singleton] at ht
            subst ht
            exact hacc c (List.mem_reverse.mp hc)
          · intro t ht c hc
            simp only [splitSkip, List.mem_singleton] at ht
            subst ht
            simp at hc
      | c0 :: rest =>
          have hrest : rest.length ≤ n := by
            simpa using Nat.succ_le_succ_iff.mp (by simpa using hlen)
          have hws0 : jsWhitespace c0 = true := h c0 (List.mem_cons_self _ _)
          have hrestws : ∀ c ∈ rest, jsWhitespace c = true :=
            fun c hc => h c (List.mem_cons_of_mem _ hc)
          constructor
          · intro t ht
            rw [splitGo] at ht
            by_cases hd : isDelim c0
            · rw [if_pos hd] at ht
              rcases List.mem_cons.mp ht with rfl | ht2
              · intro c hc
                exact hacc c (List.mem_reverse.mp hc)
              · exact (ih rest [] hrest hrestws (by simp)).2 t ht2
            · rw [if_neg hd] at ht
              refine (ih rest (c0 :: acc) hrest hrestws ?_).1 t ht
              intro c hc
              rcases List.mem_cons.mp hc with rfl | hc2
              · exact hws0
              · exact hacc c hc2
          · intro t ht
            rw [splitSkip] at ht
            by_cases hd : isDelim c0
            · rw [if_pos hd] at ht
              exact (ih rest [] hrest hrestws (by simp)).2 t ht
            · rw [if_neg hd] at ht
              refine (ih rest [c0] hrest hrestws ?_).1 t ht
              intro c hc
              rcases List.mem_cons.mp hc with rfl | hc2
              · exact hws0
              · simp at hc2

/-- Trimming an all-whitespace character list leaves nothing. -/
theorem trimChars_eq_nil_of_ws (l : List Char)
    (h : ∀ c ∈ l, jsWhitespace c = true) : trimChars l = [] := by
  unfold trimChars
  rw [List.dropWhile_eq_nil_iff.mpr h]
  simp

/-- If a string trims to empty, every character of it is whitespace. -/
theorem all_ws_of_trimChars_eq_nil (cs : List Char) (h : trimChars cs = []) :
    ∀ c ∈ cs, jsWhitespace c = true := by
  unfold trimChars at h
  have h1 : (cs.dropWhile jsWhitespace).reverse.dropWhile jsWhitespace = [] :=
    List.reverse_eq_nil_iff.mp h
  have h2 : ∀ c ∈ (cs.dropWhile jsWhitespace).reverse, jsWhitespace c = true :=
    List.dropWhile_eq_nil_iff.mp h1
  have h3 : ∀ c ∈ cs.dropWhile jsWhitespace, jsWhitespace c = true :=
    fun c hc => h2 c (List.mem_reverse.mpr hc)
  intro c hc
  rw [← List.takeWhile_append_dropWhile jsWhitespace cs] at hc
  rcases List.mem_append.mp hc with hc2 | hc2
  · exact List.mem_takeWhile_imp hc2
  · exact h3 c hc2

/-- An all-whitespace paste parses to no names at all. -/
theorem parseNames_of_all_ws (text : String)
    (hws : ∀ c ∈ text.data, jsWhitespace c = true) : parseNames text = [] := by
  rw [parseNames]
  rw [List.filter_eq_nil_iff]
  intro s hs
  obtain ⟨t, ht, rfl⟩ := List.mem_map.mp hs
  obtain ⟨l, hl, rfl⟩ := List.mem_map.mp ht
  have htoks := (splitTokens_ws text.data.length text.data [] le_rfl hws (by simp)).1 l hl
  have : jsTrim (String.mk l) = "" := by
    rw [jsTrim]
    have hdata : (String.mk l).data = l := rfl
    rw [hdata, trimChars_eq_nil_of_ws l htoks]
  simp [this]

/-- C8, confirmed: a paste that trims to the empty string — empty or
whitespace-only input — creates no magnets and leaves the board, in
particular its item-list length, unchanged; `addMagnets` returns without
touching the board (source line 89). -/
theorem c8_empty_paste (uidF : ℕ → String) (text : String) (c : ℤ) (b : Board)
    (h : jsTrim text = "") :
    magnetsFromText uidF text c = [] ∧ addMagnets uidF text c b = b := by
  have hnil : trimChars text.data = [] := congrArg String.data h
  have hws : ∀ ch ∈ text.data, jsWhitespace ch = true :=
    all_ws_of_trimChars_eq_nil text.data hnil
  constructor
  · rw [magnetsFromText, parseNames_of_all_ws text hws]
    rfl
  · rw [addMagnets, if_pos h]

/-- C8, witness: the three-space paste of the specification. -/
theorem c8_witness :
    magnetsFromText (fun _ => "m") "   " 1 = [] ∧
    addMagnets (fun _ => "m") "   " 1 DEFAULT_BOARD = DEFAULT_BOARD :=
  c8_empty_paste (fun _ => "m") "   " 1 DEFAULT_BOARD (by decide)

/-- C9, confirmed: palette lookup is total over all integers — an index in
[0, 7] selects that palette entry, and every out-of-range index falls back to
palette entry 0. -/
theorem c9_palette_total (i : ℤ) :
    (0 ≤ i → i < 8 → magnetColor i = COLORS.getD i.toNat default) ∧
    (i < 0 ∨ 8 ≤ i → magnetColor i = COLORS.getD 0 default) := by
  constructor
  · intro h0 h8
    interval_cases i <;> decide
  · intro h
    rcases h with h | h
    · rw [magnetColor, jsArrGet, if_pos h]
      decide
    · have hlen : COLORS.length ≤ i.toNat := by
        have : (8 : ℕ) ≤ i.toNat := by omega
        simpa [COLORS] using this
      rw [magnetColor, jsArrGet, if_neg (by omega)]
      rw [List.get?_eq_none.mpr hlen]
      decide

/-- C9, witness: in-range index 3 picks Yellow; out-of-range indices −2 and
11 fall back to entry 0. -/
theorem c9_witness :
    magnetColor 3 = COLORS.getD (3 : ℤ).toNat default ∧
    magnetColor (-2) = COLORS.getD 0 default ∧
    magnetColor 11 = COLORS.getD 0 default :=
  ⟨(c9_palette_total 3).1 (by decide) (by decide),
   (c9_palette_total (-2)).2 (Or.inl (by decide)),
   (c9_palette_total 11).2 (Or.inr (by decide))⟩

/-- C10, confirmed: a drag commit changes no setting, no item count, leaves
every item with a different id exactly as it was, and changes at most the x
and y of items carrying the dragged id — id, type, text and color survive. -/
theorem c10_drag_frame (b : Board) (rect : Rect) (id : String) (p : Point) :
    (onDragEnd b rect id p).settings = b.settings ∧
    (onDragEnd b rect id p).items.length = b.items.length ∧
    (∀ i old, b.items.get? i = some old → old.id ≠ id →
      (onDragEnd b rect id p).items.get? i = some old) ∧
    (∀ i old new, b.items.get? i = some old →
      (onDragEnd b rect id p).items.get? i = some new →
      new.id = old.id ∧ new.type = old.type ∧ new.text = old.text ∧
      new.color = old.color) := by
  refine ⟨rfl, by simp [onDragEnd], ?_, ?_⟩
  · intro i old hold hne
    simp only [onDragEnd, List.get?_map, hold, Option.map_some']
    rw [if_pos hne]
  · intro i old new hold hnew
    simp only [onDragEnd, List.get?_map, hold, Option.map_some'] at hnew
    by_cases hne : old.id ≠ id
    · rw [if_pos hne] at hnew
      cases hnew
      exact ⟨rfl, rfl, rfl, rfl⟩
    · rw [if_neg hne] at hnew
      cases hnew
      exact ⟨moveItem_id _ _ _ _ _, moveItem_type _ _ _ _ _,
        moveItem_text _ _ _ _ _, moveItem_color _ _ _ _ _⟩

def c10Board : Board :=
  { items := [{ id := "a", type := "magnet", text := "A", x := 10, y := 10, color := 1 },
              { id := "b", type := "label", text := "Team", x := 50, y := 50, color := 3 }],
    settings := { grid := true, snap := true, locked := false } }

def c10ItemB : Item :=
  { id := "b", type := "label", text := "Team", x := 50, y := 50, color := 3 }

def c10Rect : Rect := { left := 0, top := 0, width := 1200, height := 700 }

def c10Point : Point := { x := 300, y := 200 }

/-- C10, witness: dragging item `"a"` leaves the distinct item `"b"` exactly
in place. -/
theorem c10_witness :
    (onDragEnd c10Board c10Rect "a" c10Point).items.get? 1 = some c10ItemB :=
  (c10_drag_frame c10Board c10Rect "a" c10Point).2.2.1 1 c10ItemB rfl (by decide)
